import Mathlib

/-!
Shallow embedding of `src/codeql/fetch_repos.py` (Vulnhalla repository):
the CodeQL database acquisition pipeline.  Network requests, the
filesystem and the clock are modelled as explicit inputs; each Python
function of interest becomes a Lean function over those inputs, faithful
to the source control flow.
-/

namespace FetchRepos

/-- Error classes raised by the Python code: `CodeQLConfigError`
(configuration, 4xx), `CodeQLError` (transient/server), and Python's
builtin `IndexError` (raised by `repo_db[0]` on an empty list). -/
inductive PyError where
  | codeQLConfigError
  | codeQLError
  | indexError
deriving DecidableEq, Repr

/-- One item of a GitHub search-page response, with the fields
`parse_github_search_result` reads plus the `stargazers_count` field it
does NOT read (present in real responses). -/
structure SearchItem where
  html_url : String
  full_name : String
  forks : Nat
  watchers : Nat
  stargazers_count : Nat
deriving DecidableEq, Repr

/-- The repository dict built by `parse_github_search_result`. -/
structure RepoInfo where
  html_url : String
  repo_name : String
  forks : Nat
  stars : Nat
deriving DecidableEq, Repr

/-- `parse_github_search_result`: maps each item of the page to a repo
dict, setting `stars` from the item field `watchers` and `forks` from
`forks`, in page order (fetch_repos.py lines 220-231). -/
def parse_github_search_result (items : List SearchItem) : List RepoInfo :=
  items.map (fun item =>
    { html_url := item.html_url
      repo_name := item.full_name
      forks := item.forks
      stars := item.watchers })

/-- One entry of the code-scanning database listing of a repository;
optional fields model dict keys that may be absent. -/
structure DbEntry where
  language : Option String
  url : Option String
  content_type : Option String
  size : Option Nat
deriving DecidableEq, Repr

/-- Shape of the JSON answer of the per-repository database-listing API
call: a list of entries, a dict (with or without a message/error key),
or some other non-list shape. -/
inductive ApiResponse where
  | listResp (dbs : List DbEntry)
  | dictResp (hasMessage : Bool) (hasError : Bool)
  | otherResp
deriving DecidableEq, Repr

/-- The descriptor dict appended by `filter_repos_by_db_and_lang`. -/
structure DbDescriptor where
  repo_name : String
  html_url : String
  content_type : String
  size : Nat
  db_url : String
  forks : Nat
  stars : Nat
deriving DecidableEq, Repr

/-- The per-language key translation at line 561: GitHub stores the C
database under the cpp key. -/
def ghLang (lang : String) : String :=
  if lang = "c" then "cpp" else lang

/-- The inner loop of `filter_repos_by_db_and_lang` over one listing
(lines 595-614): keep entries whose language key is present and equals
`gh_lang`; of those, skip (with a warning) any entry missing the url
key; otherwise build the descriptor with defaults for content_type and
size. -/
def entriesToDescriptors (repo : RepoInfo) (gl : String)
    (dbs : List DbEntry) : List DbDescriptor :=
  dbs.filterMap (fun db =>
    if db.language = some gl then
      match db.url with
      | none => none
      | some u =>
          some { repo_name := repo.repo_name
                 html_url := repo.html_url
                 content_type := db.content_type.getD "application/zip"
                 size := db.size.getD 0
                 db_url := u
                 forks := repo.forks
                 stars := repo.stars }
    else none)

/-- `filter_repos_by_db_and_lang` (lines 541-615).  `fetch` gives, per
repository name, either an exception from the API call or the JSON
response.  A dict response raises `CodeQLError` only when it carries a
message or error key; every other non-list shape is logged and the
candidate skipped. -/
def filter_repos_by_db_and_lang
    (fetch : String → Except PyError ApiResponse) (lang : String)
    (repos : List RepoInfo) : Except PyError (List DbDescriptor) :=
  match repos with
  | [] => .ok []
  | repo :: rest =>
    match fetch repo.repo_name with
    | .error e => .error e
    | .ok (.dictResp hm he) =>
        if hm || he then .error .codeQLError
        else filter_repos_by_db_and_lang fetch lang rest
    | .ok .otherResp => filter_repos_by_db_and_lang fetch lang rest
    | .ok (.listResp dbs) =>
        match filter_repos_by_db_and_lang fetch lang rest with
        | .error e => .error e
        | .ok tail => .ok (entriesToDescriptors repo (ghLang lang) dbs ++ tail)

/-- Concatenation of the qualifying descriptors of `n` consecutive
search pages starting at page `start`.  `dbInPage p` stands for the
value of `filter_repos_by_db_and_lang(parse_github_search_result(url p),
lang)` for page `p` when those calls succeed. -/
def concatPages (dbInPage : Nat → List DbDescriptor) (start n : Nat) :
    List DbDescriptor :=
  match n with
  | 0 => []
  | n + 1 => dbInPage start ++ concatPages dbInPage (start + 1) n

/-- The while-loop of `search_top_matching_repos` (lines 635-651),
indexed by fuel so that non-termination of the source loop is
observable as `none` for every fuel.  Each iteration fetches page
`page`, appends its qualifying descriptors and increments the page;
the loop exits only when the accumulator has reached `max_repos`
elements, and then the function returns the first `max_repos`. -/
def searchLoopFuel (dbInPage : Nat → List DbDescriptor) (max_repos : Nat)
    (fuel : Nat) (acc : List DbDescriptor) (page : Nat) :
    Option (List DbDescriptor) :=
  if max_repos ≤ acc.length then some (acc.take max_repos)
  else
    match fuel with
    | 0 => none
    | fuel + 1 =>
        searchLoopFuel dbInPage max_repos fuel (acc ++ dbInPage page) (page + 1)

/-- `search_top_matching_repos` (lines 618-651): run the page loop from
an empty accumulator at page 1. -/
def search_top_matching_repos (dbInPage : Nat → List DbDescriptor)
    (max_repos fuel : Nat) : Option (List DbDescriptor) :=
  searchLoopFuel dbInPage max_repos fuel [] 1

/-- Observable actions of `validate_rate_limit`: one HTTP fetch of the
rate-limit snapshot, and a sleep of a given number of seconds. -/
inductive GovAction where
  | fetchQuota
  | sleep (secs : Int)
deriving DecidableEq, Repr

/-- The live rate-limit snapshot (`resources.core` of the rate_limit
response): remaining requests and the reset epoch. -/
structure RateSnapshot where
  remaining : Nat
  reset : Int
deriving DecidableEq, Repr

/-- `validate_rate_limit(threads)` (lines 234-266) as the sequence of
observable actions it takes, given the snapshot the single fetch
returns and the current epoch `now`: it fetches the quota once; if
`remaining < threads + 3` it computes `reset - now + 120` and sleeps
that long when positive; it then returns, with no further fetch. -/
def validate_rate_limit (threads : Nat) (snap : RateSnapshot) (now : Int) :
    List GovAction :=
  if snap.remaining < threads + 3 then
    let wait : Int := snap.reset - now + 120
    if 0 < wait then [.fetchQuota, .sleep wait] else [.fetchQuota]
  else [.fetchQuota]

/-- Whether a trace contains a quota fetch strictly after some sleep
action (the re-check the spec describes). -/
def recheckAfterSleep : List GovAction → Bool
  | [] => false
  | .sleep _ :: rest => rest.contains .fetchQuota || recheckAfterSleep rest
  | .fetchQuota :: rest => recheckAfterSleep rest

/-- Whether a trace contains any sleep action. -/
def hasSleep (tr : List GovAction) : Bool :=
  tr.any (fun a => match a with | .sleep _ => true | _ => false)

/-- Write mode of the destination file opened by `custom_download`:
append (resume) or overwrite (fresh). -/
inductive WriteMode where
  | append
  | overwrite
deriving DecidableEq, Repr

/-- State of the destination file before `custom_download` runs. -/
structure DestFile where
  fileExists : Bool
  fileSize : Nat
  validZip : Bool
deriving DecidableEq, Repr

/-- What `custom_download` decided before issuing its request. -/
structure DownloadSetup where
  deletedCorrupt : Bool
  rangeOffset : Option Nat
  writeMode : WriteMode
deriving DecidableEq, Repr

/-- The pre-request phase of `custom_download` (lines 290-320, 374):
with the destination existing, non-empty and not force_full_download,
the file is opened as a ZIP and tested; on failure it is deleted and
the size reset to 0.  The Range header `bytes=<size>-` is sent, and the
file opened in append mode, exactly when the surviving size is positive
and force_full_download is false. -/
def custom_download_setup (dest : DestFile) (force_full_download : Bool) :
    DownloadSetup :=
  let size0 : Nat :=
    if dest.fileExists && !force_full_download then dest.fileSize else 0
  let corrupt : Bool :=
    dest.fileExists && !force_full_download && decide (0 < dest.fileSize)
      && !dest.validZip
  let file_size : Nat := if corrupt then 0 else size0
  let range : Option Nat :=
    if 0 < file_size ∧ !force_full_download then some file_size else none
  let mode : WriteMode :=
    if 0 < file_size ∧ !force_full_download then .append else .overwrite
  { deletedCorrupt := corrupt, rangeOffset := range, writeMode := mode }

/-- Contents of the extraction directory `db_path`: an association of
entry names to an abstract content identifier.  Only the top-level
entries matter for the rename logic of `download_and_extract_db`. -/
abbrev DbDir := List (String × Nat)

/-- Lookup of a top-level entry by name. -/
def dirLookup : DbDir → String → Option Nat
  | [], _ => none
  | (k, v) :: rest, key => if k = key then some v else dirLookup rest key

/-- Whether a top-level entry with the given name exists
(`os.path.exists`). -/
def dirContains (d : DbDir) (key : String) : Bool :=
  (dirLookup d key).isSome

/-- Remove the entry with the given name, if present. -/
def dirRemove : DbDir → String → DbDir
  | [], _ => []
  | (k, v) :: rest, key =>
      if k = key then dirRemove rest key else (k, v) :: dirRemove rest key

/-- Set (create or overwrite) the entry with the given name. -/
def dirSet (d : DbDir) (key : String) (v : Nat) : DbDir :=
  dirRemove d key ++ [(key, v)]

/-- The rename-normalization step of `download_and_extract_db` (lines
679-701): pick `codeql_db` as the source if it exists, otherwise the
language folder; rename it to `repo_name` only when that target does
not already exist.  A successful rename removes the source entry and
installs its content under `repo_name`. -/
def renameStep (d : DbDir) (lang repo_name : String) : DbDir :=
  let source : Option String :=
    if dirContains d "codeql_db" then some "codeql_db"
    else if dirContains d lang then some lang
    else none
  match source with
  | none => d
  | some s =>
      if dirContains d repo_name then d
      else
        match dirLookup d s with
        | none => d
        | some v => dirSet (dirRemove d s) repo_name v

/-- `download_and_extract_db` acting on the extraction directory (lines
654-701): `unzip_file` deposits the archive root (named `archiveRoot`,
with content `c`) into the directory, overwriting that entry if it is
already there and leaving other entries alone; then the rename
normalization runs. -/
def download_and_extract_db_dir (d : DbDir) (archiveRoot : String)
    (c : Nat) (lang repo_name : String) : DbDir :=
  renameStep (dirSet d archiveRoot c) lang repo_name

/-- Join path segments with a slash, as `os.path.join` does on POSIX. -/
def joinPath (parts : List String) : String :=
  String.intercalate "/" parts

/-- Observable actions of `download_db_by_name`. -/
inductive SingleAction where
  | resolve
  | installRemote (d : DbDescriptor)
  | makedirs (p : String)
  | cloneShallow (repoUrl target : String) (depth : Nat)
  | createDb (source_root : Option String) (db_path lang : String)
  | logCreateFailure
deriving DecidableEq, Repr

/-- Environment of one `download_db_by_name` call: the outcome of the
database lookup (`filter_repos_by_db_and_lang`), of the remote install
(`download_and_extract_db`), of `clone_repo` and of `create_database`,
and whether the marker file `codeql-database.yml` exists in the target
database directory.  Directory creation is assumed to succeed. -/
structure SingleEnv where
  resolveResult : Except PyError (List DbDescriptor)
  installResult : DbDescriptor → Except PyError Unit
  cloneResult : Except PyError Unit
  markerExists : Bool
  createResult : Except PyError Unit

/-- A run of `download_db_by_name`: the actions taken and the final
result (ok, or the exception that propagated to the caller). -/
structure SingleRun where
  trace : List SingleAction
  result : Except PyError Unit
deriving Repr

instance : DecidableEq (Except PyError Unit) := fun a b =>
  match a, b with
  | .ok (), .ok () => isTrue rfl
  | .error e1, .error e2 =>
      if h : e1 = e2 then isTrue (by rw [h])
      else isFalse (by intro hh; cases hh; exact h rfl)
  | .ok (), .error _ => isFalse (by intro hh; cases hh)
  | .error _, .ok () => isFalse (by intro hh; cases hh)

instance : DecidableEq SingleRun := fun a b =>
  if h1 : a.trace = b.trace then
    if h2 : a.result = b.result then
      isTrue (by cases a; cases b; simp_all)
    else isFalse (by intro hh; exact h2 (by rw [hh]))
  else isFalse (by intro hh; exact h1 (by rw [hh]))

/-- The create-database phase shared by both fallback branches (lines
768-779): skip when the marker file exists; otherwise call
`create_database(source_root=local_source_dir, db_path=db_dir, lang)` —
note the Python code passes `local_source_dir` here, in both branches —
and swallow any failure of that call (it is logged and the function
returns normally). -/
def createPhase (env : SingleEnv) (tr : List SingleAction)
    (local_source_dir : Option String) (db_dir lang : String) : SingleRun :=
  if env.markerExists then ⟨tr, .ok ()⟩
  else
    match env.createResult with
    | .ok _ => ⟨tr ++ [.createDb local_source_dir db_dir lang], .ok ()⟩
    | .error _ =>
        ⟨tr ++ [.createDb local_source_dir db_dir lang, .logCreateFailure],
         .ok ()⟩

/-- `download_db_by_name` (lines 704-779).  The try-block resolves the
database listing for the single repository and installs descriptor 0
(`repo_db[0]` raises IndexError on an empty list).  The except clause
catches CodeQLConfigError, CodeQLError and IndexError alike and runs
the fallback: with no `local_source_dir` it creates
`output/sources/<lang>/<name>` and
`output/databases/<lang>/<name>/codeql_db`, clones the repository
shallowly (depth 1) into the sources directory (a `clone_repo` failure
propagates), then runs the create phase; with a `local_source_dir` it
creates `<cwd>/output/databases/<lang>/<name>/codeql_db` and runs the
create phase directly. -/
def download_db_by_name (env : SingleEnv) (cwd org name lang : String)
    (local_source_dir : Option String) : SingleRun :=
  let attempt : List SingleAction × Option PyError :=
    match env.resolveResult with
    | .error e => ([.resolve], some e)
    | .ok [] => ([.resolve], some .indexError)
    | .ok (d :: _) =>
        match env.installResult d with
        | .ok _ => ([.resolve, .installRemote d], none)
        | .error e => ([.resolve, .installRemote d], some e)
  match attempt with
  | (tr, none) => ⟨tr, .ok ()⟩
  | (tr, some _) =>
      match local_source_dir with
      | none =>
          let source_dir := joinPath ["output", "sources", lang, name]
          let db_dir := joinPath ["output", "databases", lang, name, "codeql_db"]
          let cloneUrl := "https://github.com/" ++ org ++ "/" ++ name ++ ".git"
          let tr2 := tr ++ [.makedirs source_dir, .makedirs db_dir,
                            .cloneShallow cloneUrl source_dir 1]
          match env.cloneResult with
          | .error e => ⟨tr2, .error e⟩
          | .ok _ => createPhase env tr2 none db_dir lang
      | some lsd =>
          let db_dir :=
            joinPath [cwd, "output", "databases", lang, name, "codeql_db"]
          createPhase env (tr ++ [.makedirs db_dir]) (some lsd) db_dir lang

/-- Outcome of `download_and_extract_db` for one descriptor in the bulk
loop: success, or the exception it raises. -/
inductive InstallOutcome where
  | ok
  | raise (e : PyError)
deriving DecidableEq, Repr

/-- A run of the bulk portion of `fetch_codeql_dbs`: the descriptors
installed (in order), the successive checkpoint-file contents written,
whether the checkpoint file was deleted at the end, and the exception
that aborted the loop, if any. -/
structure BulkRun where
  installed : List DbDescriptor
  writes : List (List DbDescriptor)
  checkpointDeleted : Bool
  error : Option PyError
deriving DecidableEq, Repr

/-- The for-loop of `fetch_codeql_dbs` (lines 841-859): install each
descriptor in turn; after each success write the remaining suffix
`repos_db[i+1:]` to the checkpoint file; any exception aborts the loop
(there is no try/except around `download_and_extract_db`), leaving the
checkpoint at its last written content; the file is deleted only after
the loop completes. -/
def bulkLoop (outcome : DbDescriptor → InstallOutcome) :
    List DbDescriptor → BulkRun
  | [] => ⟨[], [], true, none⟩
  | d :: rest =>
    match outcome d with
    | .raise e => ⟨[], [], false, some e⟩
    | .ok =>
        let r := bulkLoop outcome rest
        ⟨d :: r.installed, rest :: r.writes, r.checkpointDeleted, r.error⟩

/-- The bulk mode of `fetch_codeql_dbs` (lines 836-859): after
collecting the descriptors, the full pending list is written to the
checkpoint file once before the loop starts, then the loop runs. -/
def fetch_codeql_dbs_bulk (outcome : DbDescriptor → InstallOutcome)
    (repos_db : List DbDescriptor) : BulkRun :=
  let r := bulkLoop outcome repos_db
  ⟨r.installed, repos_db :: r.writes, r.checkpointDeleted, r.error⟩

/-- A sample descriptor used in concrete evaluations. -/
def sampleDesc (s : String) : DbDescriptor :=
  ⟨s, "", "application/zip", 0, s, 0, 0⟩

/-- Number of quota fetches in a governor trace. -/
def countFetch : List GovAction → Nat
  | [] => 0
  | .fetchQuota :: r => countFetch r + 1
  | .sleep _ :: r => countFetch r

/-- An install outcome where the first sample descriptor raises a
transient CodeQLError and every other descriptor installs fine. -/
def c2Outcome (d : DbDescriptor) : InstallOutcome :=
  if d.repo_name = "org/a" then .raise .codeQLError else .ok

theorem dirLookup_append_some {a : DbDir} (b : DbDir) {k : String} {v : Nat}
    (h : dirLookup a k = some v) : dirLookup (a ++ b) k = some v := by
  induction a with
  | nil => simp [dirLookup] at h
  | cons e rest ih =>
      obtain ⟨k2, v2⟩ := e
      by_cases hk : k2 = k
      · simpa [dirLookup, hk] using h
      · rw [List.cons_append]
        simp only [dirLookup, if_neg hk] at h ⊢
        exact ih h

theorem dirLookup_append_none {a : DbDir} (b : DbDir) {k : String}
    (h : dirLookup a k = none) : dirLookup (a ++ b) k = dirLookup b k := by
  induction a with
  | nil => simp
  | cons e rest ih =>
      obtain ⟨k2, v2⟩ := e
      by_cases hk : k2 = k
      · simp [dirLookup, hk] at h
      · rw [List.cons_append]
        simp only [dirLookup, if_neg hk] at h ⊢
        exact ih h

theorem dirLookup_remove_ne (d : DbDir) {k r : String} (h : k ≠ r) :
    dirLookup (dirRemove d r) k = dirLookup d k := by
  induction d with
  | nil => rfl
  | cons e rest ih =>
      obtain ⟨k2, v2⟩ := e
      by_cases hk : k2 = r
      · subst hk
        simp [dirRemove, dirLookup, Ne.symm h, ih]
      · by_cases hkk : k2 = k
        · subst hkk
          simp [dirRemove, hk, dirLookup]
        · simp [dirRemove, hk, dirLookup, hkk, ih]

theorem dirLookup_remove_self (d : DbDir) (r : String) :
    dirLookup (dirRemove d r) r = none := by
  induction d with
  | nil => rfl
  | cons e rest ih =>
      obtain ⟨k2, v2⟩ := e
      by_cases hk : k2 = r
      · simp [dirRemove, hk, ih]
      · simp [dirRemove, hk, dirLookup, ih]

theorem dirLookup_set_eq (d : DbDir) (r : String) (c : Nat) :
    dirLookup (dirSet d r c) r = some c := by
  unfold dirSet
  rw [dirLookup_append_none _ (dirLookup_remove_self d r)]
  simp [dirLookup]

theorem dirLookup_set_ne (d : DbDir) {k r : String} (c : Nat) (h : k ≠ r) :
    dirLookup (dirSet d r c) k = dirLookup d k := by
  unfold dirSet
  cases hl : dirLookup (dirRemove d r) k with
  | none =>
      rw [dirLookup_append_none _ hl]
      rw [dirLookup_remove_ne d h] at hl
      simp [dirLookup, Ne.symm h, hl]
  | some v =>
      rw [dirLookup_append_some _ hl]
      rw [dirLookup_remove_ne d h] at hl
      exact hl.symm

theorem renameStep_of_target (d : DbDir) (lang repo_name : String)
    (h : dirContains d repo_name = true) :
    renameStep d lang repo_name = d := by
  unfold renameStep
  by_cases h1 : dirContains d "codeql_db"
  · simp [h1, h]
  · by_cases h2 : dirContains d lang
    · simp [h1, h2, h]
    · simp [h1, h2]

theorem bulkLoop_deleted_iff (outcome : DbDescriptor → InstallOutcome)
    (l : List DbDescriptor) :
    (bulkLoop outcome l).checkpointDeleted = true ↔
      (bulkLoop outcome l).installed = l := by
  induction l with
  | nil => simp [bulkLoop]
  | cons d rest ih =>
      cases ho : outcome d with
      | raise e => simp [bulkLoop, ho]
      | ok => simpa [bulkLoop, ho] using ih

theorem bulkLoop_writes_get (outcome : DbDescriptor → InstallOutcome) :
    ∀ (k : Nat) (l : List DbDescriptor), k < l.length →
      (∀ d ∈ l.take (k + 1), outcome d = .ok) →
      (bulkLoop outcome l).writes[k]? = some (l.drop (k + 1)) := by
  intro k
  induction k with
  | zero =>
      intro l hk hok
      match l, hk with
      | d :: rest, _ =>
          have hd : outcome d = .ok := hok d (by simp)
          simp [bulkLoop, hd]
  | succ k ih =>
      intro l hk hok
      match l, hk with
      | d :: rest, hk =>
          have hd : outcome d = .ok := hok d (by simp)
          have hrest : ∀ x ∈ rest.take (k + 1), outcome x = .ok := by
            intro x hx
            exact hok x (by simp [List.take_succ_cons, hx])
          have hklt : k < rest.length := by
            simpa [Nat.succ_lt_succ_iff] using hk
          simpa [bulkLoop, hd] using ih rest hklt hrest

theorem bulkLoop_halt (outcome : DbDescriptor → InstallOutcome) :
    ∀ (i : Nat) (l : List DbDescriptor) (d : DbDescriptor) (e : PyError),
      l[i]? = some d → outcome d = .raise e →
      (∀ x ∈ l.take i, outcome x = .ok) →
      bulkLoop outcome l =
        ⟨l.take i, (List.range i).map (fun j => l.drop (j + 1)),
         false, some e⟩ := by
  intro i
  induction i with
  | zero =>
      intro l d e hd he _
      cases l with
      | nil => simp at hd
      | cons d0 rest =>
          simp only [List.getElem?_cons_zero, Option.some.injEq] at hd
          subst hd
          simp [bulkLoop, he]
  | succ i ih =>
      intro l d e hd he hok
      cases l with
      | nil => simp at hd
      | cons d0 rest =>
          have hd0 : outcome d0 = .ok := hok d0 (by simp [List.take_succ_cons])
          have hrest : ∀ x ∈ rest.take i, outcome x = .ok := by
            intro x hx
            exact hok x (by simp [List.take_succ_cons, hx])
          have hdr : rest[i]? = some d := by simpa using hd
          have hr := ih rest d e hdr he hrest
          simp [bulkLoop, hd0, hr, List.take_succ_cons,
                List.range_succ_eq_map, List.map_map, Function.comp]

theorem searchLoopFuel_complete (dbInPage : Nat → List DbDescriptor)
    (max_repos : Nat) :
    ∀ (fuel : Nat) (acc : List DbDescriptor) (page : Nat),
      max_repos ≤ (acc ++ concatPages dbInPage page fuel).length →
      searchLoopFuel dbInPage max_repos fuel acc page =
        some ((acc ++ concatPages dbInPage page fuel).take max_repos) := by
  intro fuel
  induction fuel with
  | zero =>
      intro acc page h
      rw [searchLoopFuel]
      simp only [concatPages, List.append_nil] at h ⊢
      rw [if_pos h]
  | succ fuel ih =>
      intro acc page h
      rw [searchLoopFuel]
      by_cases hle : max_repos ≤ acc.length
      · rw [if_pos hle, List.take_append_of_le_length hle]
      · rw [if_neg hle]
        have hass :
            acc ++ concatPages dbInPage page (fuel + 1) =
              (acc ++ dbInPage page) ++ concatPages dbInPage (page + 1) fuel := by
          rw [concatPages, List.append_assoc]
        rw [hass] at h
        rw [ih (acc ++ dbInPage page) (page + 1) h, hass]

theorem searchLoopFuel_empty_pages (max_repos : Nat) (hm : 0 < max_repos) :
    ∀ (fuel page : Nat),
      searchLoopFuel (fun _ => []) max_repos fuel [] page = none := by
  intro fuel
  induction fuel with
  | zero =>
      intro page
      rw [searchLoopFuel]
      simp [Nat.pos_iff_ne_zero.mp hm, Nat.not_le, hm]
  | succ fuel ih =>
      intro page
      rw [searchLoopFuel]
      simp only [List.length_nil, List.append_nil]
      rw [if_neg (by omega)]
      exact ih (page + 1)

/-- C10: for every item of a search-page response,
`parse_github_search_result` produces, at the same position, a
repository dict whose stars field is the watchers count of the item
(not the stargazers count) and whose forks field is its forks count;
the length, hence the order, of the page is preserved. -/
theorem C10_parse_fields_and_order (items : List SearchItem) (i : Nat)
    (it : SearchItem) (h : items[i]? = some it) :
    (parse_github_search_result items)[i]? =
      some ⟨it.html_url, it.full_name, it.forks, it.watchers⟩ ∧
    (parse_github_search_result items).length = items.length := by
  constructor
  · simp [parse_github_search_result, List.getElem?_map, h]
  · simp [parse_github_search_result]

/-- Witness for C10 at a concrete page item whose watchers count (7)
differs from its stargazers count (9): the produced stars field is 7. -/
theorem C10_witness :
    (parse_github_search_result [⟨"u", "o/r", 4, 7, 9⟩])[0]? =
      some ⟨"u", "o/r", 4, 7⟩ ∧
    (parse_github_search_result [⟨"u", "o/r", 4, 7, 9⟩]).length = 1 :=
  C10_parse_fields_and_order [⟨"u", "o/r", 4, 7, 9⟩] 0 ⟨"u", "o/r", 4, 7, 9⟩ rfl

/-- C7: `filter_repos_by_db_and_lang` skips a database entry that
matches the language but is missing the url field, continuing with the
rest of the listing; a non-list response is fatal exactly when it is a
dict carrying a message or error key; a dict without those keys, or
any other non-list shape, is logged and the candidate skipped without
aborting the remaining candidates. -/
theorem C7_lenient_error_policy (fetch : String → Except PyError ApiResponse)
    (lang : String) (repo : RepoInfo) (rest : List RepoInfo)
    (db : DbEntry) (dbs : List DbEntry) (hm he : Bool) :
    (db.language = some (ghLang lang) → db.url = none →
      entriesToDescriptors repo (ghLang lang) (db :: dbs) =
        entriesToDescriptors repo (ghLang lang) dbs) ∧
    (fetch repo.repo_name = .ok (.dictResp hm he) → (hm || he) = true →
      filter_repos_by_db_and_lang fetch lang (repo :: rest) =
        .error .codeQLError) ∧
    (fetch repo.repo_name = .ok (.dictResp false false) →
      filter_repos_by_db_and_lang fetch lang (repo :: rest) =
        filter_repos_by_db_and_lang fetch lang rest) ∧
    (fetch repo.repo_name = .ok .otherResp →
      filter_repos_by_db_and_lang fetch lang (repo :: rest) =
        filter_repos_by_db_and_lang fetch lang rest) := by
  refine ⟨?_, ?_, ?_, ?_⟩
  · intro hl hu
    simp [entriesToDescriptors, hl, hu]
  · intro hf hor
    rw [filter_repos_by_db_and_lang, hf]
    simp [hor]
  · intro hf
    rw [filter_repos_by_db_and_lang, hf]
    simp
  · intro hf
    rw [filter_repos_by_db_and_lang, hf]

/-- Witness for C7: a language-matching entry without a url contributes
nothing, and a dict response with a message key aborts with
CodeQLError. -/
theorem C7_witness :
    entriesToDescriptors ⟨"", "o/a", 0, 0⟩ (ghLang "c")
        [⟨some "cpp", none, none, none⟩] =
      entriesToDescriptors ⟨"", "o/a", 0, 0⟩ (ghLang "c") [] ∧
    filter_repos_by_db_and_lang
        (fun _ => Except.ok (ApiResponse.dictResp true false)) "c"
        [⟨"", "o/a", 0, 0⟩] = Except.error PyError.codeQLError :=
  ⟨(C7_lenient_error_policy (fun _ => Except.ok (ApiResponse.dictResp true false))
      "c" ⟨"", "o/a", 0, 0⟩ [] ⟨some "cpp", none, none, none⟩ [] true false).1
      (by decide) rfl,
   (C7_lenient_error_policy (fun _ => Except.ok (ApiResponse.dictResp true false))
      "c" ⟨"", "o/a", 0, 0⟩ [] ⟨some "cpp", none, none, none⟩ [] true false).2.1
      rfl rfl⟩

/-- C6: before any resume, `custom_download` validates an existing
non-empty destination file as a ZIP; a file failing validation is
deleted and the download restarts at offset zero with no Range header
in overwrite mode, so appending to a corrupt file never occurs; a file
passing validation resumes at its byte length with a Range header and
append mode; any request carrying a Range offset implies the file
validated and full download was not forced. -/
theorem C6_resume_validation (dest : DestFile) (force : Bool) :
    (dest.fileExists = true → force = false → 0 < dest.fileSize →
      dest.validZip = false →
      custom_download_setup dest force = ⟨true, none, .overwrite⟩) ∧
    (dest.fileExists = true → force = false → 0 < dest.fileSize →
      dest.validZip = true →
      custom_download_setup dest force = ⟨false, some dest.fileSize, .append⟩) ∧
    ((custom_download_setup dest force).rangeOffset.isSome = true →
      dest.validZip = true ∧ force = false ∧
      (custom_download_setup dest force).writeMode = .append) := by
  obtain ⟨fe, fs, vz⟩ := dest
  cases fe <;> cases vz <;> cases force <;> by_cases h3 : 0 < fs <;>
    simp_all [custom_download_setup]

/-- Witness for C6: a corrupt 5-byte file is deleted and the download
restarts fresh; a valid 7-byte file resumes at offset 7 in append
mode. -/
theorem C6_witness :
    custom_download_setup ⟨true, 5, false⟩ false = ⟨true, none, .overwrite⟩ ∧
    custom_download_setup ⟨true, 7, true⟩ false = ⟨false, some 7, .append⟩ :=
  ⟨(C6_resume_validation ⟨true, 5, false⟩ false).1 rfl rfl (by decide) rfl,
   (C6_resume_validation ⟨true, 7, true⟩ false).2.1 rfl rfl (by decide) rfl⟩

/-- C1 (counterexample): with 4 threads and a live snapshot showing 0
remaining requests and a reset epoch more than two minutes in the past,
`validate_rate_limit` neither sleeps nor re-checks the quota: the
caller proceeds although remaining < threads + 3. -/
theorem C1_governor_counterexample :
    (⟨0, 0⟩ : RateSnapshot).remaining < 4 + 3 ∧
    hasSleep (validate_rate_limit 4 ⟨0, 0⟩ 1000) = false ∧
    recheckAfterSleep (validate_rate_limit 4 ⟨0, 0⟩ 1000) = false := by
  decide

/-- C1 (amended): whenever the snapshot shows remaining < threads + 3,
`validate_rate_limit` sleeps for reset − now + 120 seconds when that
quantity is positive (waking two minutes past the reset epoch) and
otherwise does not sleep at all; it makes exactly one quota fetch per
call and never re-checks the quota after sleeping. -/
theorem C1_governor_amended (threads : Nat) (snap : RateSnapshot) (now : Int)
    (h : snap.remaining < threads + 3) :
    (0 < snap.reset - now + 120 →
      validate_rate_limit threads snap now =
        [.fetchQuota, .sleep (snap.reset - now + 120)]) ∧
    (snap.reset - now + 120 ≤ 0 →
      validate_rate_limit threads snap now = [.fetchQuota]) ∧
    recheckAfterSleep (validate_rate_limit threads snap now) = false ∧
    countFetch (validate_rate_limit threads snap now) = 1 := by
  refine ⟨?_, ?_, ?_, ?_⟩
  · intro hw
    simp [validate_rate_limit, h, hw]
  · intro hw
    simp [validate_rate_limit, h, Int.not_lt.mpr hw]
  · by_cases hw : 0 < snap.reset - now + 120
    · simp [validate_rate_limit, h, hw, recheckAfterSleep, List.contains]
    · simp [validate_rate_limit, h, hw, recheckAfterSleep]
  · by_cases hw : 0 < snap.reset - now + 120
    · simp [validate_rate_limit, h, hw, countFetch]
    · simp [validate_rate_limit, h, hw, countFetch]

/-- Witness for C1 (amended) at a snapshot with 0 remaining and reset
epoch 100, now 0: the governor sleeps 220 seconds and fetches the
quota exactly once. -/
theorem C1_governor_witness :
    validate_rate_limit 4 ⟨0, 100⟩ 0 = [.fetchQuota, .sleep (100 - 0 + 120)] :=
  (C1_governor_amended 4 ⟨0, 100⟩ 0 (by decide)).1 (by decide)

/-- C2 (counterexample): in bulk mode a transient CodeQLError raised
while installing the first of two descriptors aborts the batch: the
error (which is not a CodeQLConfigError) propagates, nothing is
installed and the second descriptor is never processed. -/
theorem C2_counterexample :
    PyError.codeQLError ≠ PyError.codeQLConfigError ∧
    (fetch_codeql_dbs_bulk c2Outcome
        [sampleDesc "org/a", sampleDesc "org/b"]).error =
      some PyError.codeQLError ∧
    (fetch_codeql_dbs_bulk c2Outcome
        [sampleDesc "org/a", sampleDesc "org/b"]).installed = [] ∧
    sampleDesc "org/b" ∉
      (fetch_codeql_dbs_bulk c2Outcome
        [sampleDesc "org/a", sampleDesc "org/b"]).installed := by
  decide

/-- C2 (amended): in bulk mode any exception raised while installing
descriptor i of n — transient or configuration alike — propagates and
halts the batch (there is no per-item exception handling): exactly the
first i descriptors are installed, the checkpoint file is not deleted,
and its written contents are the initial full list followed by the
suffixes after each of the i successful installs. -/
theorem C2_bulk_halts_on_any_error (outcome : DbDescriptor → InstallOutcome)
    (l : List DbDescriptor) (i : Nat) (d : DbDescriptor) (e : PyError)
    (hd : l[i]? = some d) (he : outcome d = .raise e)
    (hok : ∀ x ∈ l.take i, outcome x = .ok) :
    fetch_codeql_dbs_bulk outcome l =
      ⟨l.take i, l :: (List.range i).map (fun j => l.drop (j + 1)),
       false, some e⟩ := by
  unfold fetch_codeql_dbs_bulk
  rw [bulkLoop_halt outcome i l d e hd he hok]

/-- Witness for C2 (amended): the transient failure on the first of two
descriptors halts the run with nothing installed and the full list
still checkpointed. -/
theorem C2_witness :
    fetch_codeql_dbs_bulk c2Outcome [sampleDesc "org/a", sampleDesc "org/b"] =
      ⟨[], [[sampleDesc "org/a", sampleDesc "org/b"]], false,
       some PyError.codeQLError⟩ :=
  C2_bulk_halts_on_any_error c2Outcome
    [sampleDesc "org/a", sampleDesc "org/b"] 0 (sampleDesc "org/a")
    PyError.codeQLError (by decide) (by decide) (by intro x hx; simp at hx)

/-- C4: in bulk mode, when the first k installs succeed, the k-th
checkpoint write (counting the initial full write as the 0-th) contains
exactly the remaining n − k descriptors in their original order, and
the checkpoint file is deleted precisely when every descriptor was
installed (full completion). -/
theorem C4_checkpoint_invariant (outcome : DbDescriptor → InstallOutcome)
    (l : List DbDescriptor) (k : Nat) (hk : k ≤ l.length)
    (hok : ∀ d ∈ l.take k, outcome d = .ok) :
    (fetch_codeql_dbs_bulk outcome l).writes[k]? = some (l.drop k) ∧
    ((fetch_codeql_dbs_bulk outcome l).checkpointDeleted = true ↔
      (fetch_codeql_dbs_bulk outcome l).installed = l) := by
  constructor
  · unfold fetch_codeql_dbs_bulk
    cases k with
    | zero => simp
    | succ j =>
        have hj : j < l.length := by omega
        simpa using bulkLoop_writes_get outcome j l hj hok
  · unfold fetch_codeql_dbs_bulk
    simpa using bulkLoop_deleted_iff outcome l

/-- Witness for C4 with one descriptor installing successfully: the
write after the install is the empty remainder, and deletion coincides
with full completion. -/
theorem C4_witness :
    (fetch_codeql_dbs_bulk (fun _ => InstallOutcome.ok)
        [sampleDesc "org/b"]).writes[1]? = some [] ∧
    ((fetch_codeql_dbs_bulk (fun _ => InstallOutcome.ok)
        [sampleDesc "org/b"]).checkpointDeleted = true ↔
      (fetch_codeql_dbs_bulk (fun _ => InstallOutcome.ok)
        [sampleDesc "org/b"]).installed = [sampleDesc "org/b"]) :=
  C4_checkpoint_invariant (fun _ => InstallOutcome.ok) [sampleDesc "org/b"] 1
    (by decide) (by intro d hd; rfl)

/-- C3 (code evaluation at the failing input): in single-repository
mode with the resolver returning zero descriptors, no local source
directory and no existing marker file, `download_db_by_name` does clone
shallowly (depth 1) into output/sources/c/redis, but then invokes
`create_database` with source_root = none — the value of
local_source_dir — instead of the cloned source tree, while the target
database path is the canonical output/databases/c/redis/codeql_db. -/
theorem C3_create_db_ignores_clone :
    download_db_by_name
        ⟨.ok [], fun _ => .ok (), .ok (), false, .ok ()⟩
        "/cwd" "redis" "redis" "c" none =
      ⟨[.resolve, .makedirs "output/sources/c/redis",
        .makedirs "output/databases/c/redis/codeql_db",
        .cloneShallow "https://github.com/redis/redis.git"
          "output/sources/c/redis" 1,
        .createDb none "output/databases/c/redis/codeql_db" "c"],
       .ok ()⟩ := by
  decide

/-- C5 (code evaluation at the failing input): in single-repository
mode a CodeQLConfigError raised by the database lookup (e.g. a 401) is
caught by the except clause of `download_db_by_name` together with
transient errors, and the call returns normally through the local-build
fallback instead of propagating the configuration error to the
caller. -/
theorem C5_config_error_absorbed :
    (download_db_by_name
        ⟨.error .codeQLConfigError, fun _ => .ok (), .ok (), false, .ok ()⟩
        "/cwd" "org" "repo" "c" none).result = Except.ok () ∧
    (download_db_by_name
        ⟨.error .codeQLConfigError, fun _ => .ok (), .ok (), false, .ok ()⟩
        "/cwd" "org" "repo" "c" none).result ≠
      Except.error PyError.codeQLConfigError := by
  decide

/-- C8 (counterexample): installing the same descriptor twice is not
idempotent on the extraction directory: the first run renames the
extracted codeql_db root to the repository name, but the second run
re-extracts codeql_db and skips the rename (the target exists), so the
directory ends up with both roots and differs from the first-run
state. -/
theorem C8_counterexample :
    download_and_extract_db_dir
        (download_and_extract_db_dir [] "codeql_db" 7 "c" "redis")
        "codeql_db" 7 "c" "redis" ≠
      download_and_extract_db_dir [] "codeql_db" 7 "c" "redis" := by
  decide

/-- C8 (amended): a second run of the installer on a directory that
already holds the installed database under the repository name leaves
that entry unchanged and uncorrupted — the rename is skipped because
the target exists — but re-deposits the extracted archive root, so the
final state is the first-run state plus that extra root entry. -/
theorem C8_second_install_amended (d : DbDir) (root lang repo : String)
    (c : Nat) (h1 : dirContains d repo = true) (h2 : repo ≠ root) :
    download_and_extract_db_dir d root c lang repo = dirSet d root c ∧
    dirLookup (download_and_extract_db_dir d root c lang repo) repo =
      dirLookup d repo := by
  have hc : dirContains (dirSet d root c) repo = true := by
    unfold dirContains
    rw [dirLookup_set_ne d c h2]
    exact h1
  constructor
  · unfold download_and_extract_db_dir
    exact renameStep_of_target _ lang repo hc
  · unfold download_and_extract_db_dir
    rw [renameStep_of_target _ lang repo hc]
    exact dirLookup_set_ne d c h2

/-- Witness for C8 (amended) on the state left by a first install of
the redis database: the second run only re-adds the codeql_db entry. -/
theorem C8_witness :
    download_and_extract_db_dir [("redis", 7)] "codeql_db" 7 "c" "redis" =
      dirSet [("redis", 7)] "codeql_db" 7 ∧
    dirLookup
        (download_and_extract_db_dir [("redis", 7)] "codeql_db" 7 "c" "redis")
        "redis" =
      dirLookup [("redis", 7)] "redis" :=
  C8_second_install_amended [("redis", 7)] "codeql_db" "c" "redis" 7
    (by decide) (by decide)

/-- C9 (counterexample): when every search page contributes zero
qualifying descriptors and max_repos = 1, the while-loop of
`search_top_matching_repos` never terminates: no fuel bound makes it
return a result. -/
theorem C9_counterexample :
    ¬ ∃ (fuel : Nat) (res : List DbDescriptor),
        search_top_matching_repos (fun _ => []) 1 fuel = some res := by
  rintro ⟨fuel, res, hres⟩
  unfold search_top_matching_repos at hres
  rw [searchLoopFuel_empty_pages 1 (by decide) fuel 1] at hres
  exact Option.noConfusion hres

/-- C9 (amended): whenever the first N pages together contribute at
least max_repos qualifying descriptors, `search_top_matching_repos`
terminates within N iterations and returns the first max_repos
descriptors of the concatenated per-page qualifying results, in order
— in particular at most max_repos of them; if every page past some
point is empty and the accumulated count stays short, the loop runs
forever. -/
theorem C9_search_terminates_when_enough
    (dbInPage : Nat → List DbDescriptor) (max_repos N : Nat)
    (h : max_repos ≤ (concatPages dbInPage 1 N).length) :
    search_top_matching_repos dbInPage max_repos N =
      some ((concatPages dbInPage 1 N).take max_repos) ∧
    ((concatPages dbInPage 1 N).take max_repos).length ≤ max_repos := by
  constructor
  · unfold search_top_matching_repos
    simpa using
      searchLoopFuel_complete dbInPage max_repos N [] 1 (by simpa using h)
  · exact List.length_take_le _ _

/-- Witness for C9 (amended): two pages of one qualifying descriptor
each satisfy max_repos = 2 within two iterations. -/
theorem C9_witness :
    search_top_matching_repos (fun _ => [sampleDesc "x"]) 2 2 =
      some ((concatPages (fun _ => [sampleDesc "x"]) 1 2).take 2) ∧
    ((concatPages (fun _ => [sampleDesc "x"]) 1 2).take 2).length ≤ 2 :=
  C9_search_terminates_when_enough (fun _ => [sampleDesc "x"]) 2 2 (by decide)

end FetchRepos
